import Mathlib

/-!
Shallow embedding of the earnings-accrual engine of `src/salaryCounter.js`
(the persisted-settings variant of the `SalaryCounter` component, which
contains all engine helpers: `isDayEnabled`, `getWorkingHoursSoFarToday`,
`getDailyWorkingHours`, `getWorkingHoursSoFarThisMonth`,
`getTotalWorkingHoursThisMonth`, `getTotalWorkingDaysPerYear`,
`calculateEarnings`, `calculateDailyEarnings`, `isCurrentlyInWorkHours`,
and the `earnedPerSecond` computation).

Modelling choices:
* JS numbers are modelled by `ℚ` (the engine only adds, subtracts,
  multiplies and divides; every division by zero is guarded in the code,
  so exact rational arithmetic is a faithful model of the float code on
  its reachable values).
* A JS `Date` "now" is modelled by `ClockReading`: the weekday of day 1 of
  the current month (`firstWeekday`), the number of days in the current
  month (`daysInMonth`), today's day-of-month (`dayOfMonth`, 1-based) and
  the time of day in milliseconds since local midnight (`timeMs`).
  `new Date(year, month, day).getDay()` becomes
  `(firstWeekday + (day - 1)) % 7`, which is exactly how weekdays of the
  days of one month relate; `new Date(year, month, day, h, 0, 0)` becomes
  the millisecond offset `h * 3600000` from midnight of that day, which is
  exactly JS `Date` normalisation for any integer `h`; comparing and
  subtracting same-day timestamps becomes comparing and subtracting these
  offsets.
* The per-weekday toggles `dayToggles` become `workingDays : Fin 7 → Bool`
  (index 0 = Sunday … 6 = Saturday).
-/

namespace SalaryCounter

/-- The user's configuration: `dayToggles`, `startHour`, `endHour`
(`annualSalary` is passed separately to the calculation functions,
exactly as in the source, and `currency` is display-only). -/
structure Schedule where
  workingDays : Fin 7 → Bool
  startHour : ℤ
  endHour : ℤ

/-- A snapshot of `new Date()` as far as the engine reads it. -/
structure ClockReading where
  firstWeekday : Fin 7
  daysInMonth : ℕ
  dayOfMonth : ℕ
  timeMs : ℕ

/-- Weekday of day `day` (1-based) of the current month:
`new Date(year, month, day).getDay()`. -/
def weekdayOfDay (first : Fin 7) (day : ℕ) : Fin 7 :=
  ⟨(first.val + (day - 1)) % 7, Nat.mod_lt _ (by norm_num)⟩

/-- Weekday of today's date, `new Date(y, m, now.getDate()).getDay()`. -/
def todayWeekday (c : ClockReading) : Fin 7 :=
  weekdayOfDay c.firstWeekday c.dayOfMonth

/-- `isDayEnabled(date)`: `!!dayToggles[date.getDay()]`. -/
def isDayEnabled (s : Schedule) (w : Fin 7) : Bool :=
  s.workingDays w

/-- `getDailyWorkingHours()`: `endHour - startHour`. -/
def getDailyWorkingHours (s : Schedule) : ℚ :=
  (s.endHour : ℚ) - (s.startHour : ℚ)

/-- Millisecond offset of `new Date(y, m, d, startHour, 0, 0)` from local
midnight of day `d`. -/
def startMs (s : Schedule) : ℤ :=
  s.startHour * 3600000

/-- Millisecond offset of `new Date(y, m, d, endHour, 0, 0)` from local
midnight of day `d`. -/
def endMs (s : Schedule) : ℤ :=
  s.endHour * 3600000

/-- `getWorkingHoursSoFarToday()`: 0 on a disabled day; 0 before the start
of work; `endHour - startHour` strictly after the end of work; otherwise
`(now - startOfWork) / 1000 / 3600` hours. -/
def getWorkingHoursSoFarToday (s : Schedule) (c : ClockReading) : ℚ :=
  if ¬ (isDayEnabled s (todayWeekday c) = true) then 0
  else if (c.timeMs : ℤ) < startMs s then 0
  else if endMs s < (c.timeMs : ℤ) then getDailyWorkingHours s
  else ((c.timeMs : ℚ) - ((startMs s : ℤ) : ℚ)) / 1000 / 3600

/-- One iteration of the `for (let day = 1; day <= now.getDate(); day++)`
loop body of `getWorkingHoursSoFarThisMonth()`. -/
def elapsedContribution (s : Schedule) (c : ClockReading) (day : ℕ) : ℚ :=
  if ¬ (isDayEnabled s (weekdayOfDay c.firstWeekday day) = true) then 0
  else if day < c.dayOfMonth then getDailyWorkingHours s
  else if (c.timeMs : ℤ) < startMs s then 0
  else if endMs s < (c.timeMs : ℤ) then getDailyWorkingHours s
  else ((c.timeMs : ℚ) - ((startMs s : ℤ) : ℚ)) / 1000 / 3600

/-- `getWorkingHoursSoFarThisMonth()`: the loop over days 1 … `now.getDate()`. -/
def getWorkingHoursSoFarThisMonth (s : Schedule) (c : ClockReading) : ℚ :=
  ((List.range c.dayOfMonth).map (fun i => elapsedContribution s c (i + 1))).sum

/-- `getTotalWorkingHoursThisMonth()`: the loop over days 1 … `daysInMonth`,
adding `endHour - startHour` for each enabled day. -/
def getTotalWorkingHoursThisMonth (s : Schedule) (c : ClockReading) : ℚ :=
  ((List.range c.daysInMonth).map (fun i =>
    if isDayEnabled s (weekdayOfDay c.firstWeekday (i + 1)) = true then
      getDailyWorkingHours s
    else 0)).sum

/-- `getTotalWorkingDaysPerYear()`: count of toggled-on weekdays, times 52. -/
def getTotalWorkingDaysPerYear (s : Schedule) : ℕ :=
  ((List.finRange 7).countP (fun d => s.workingDays d)) * 52

/-- `calculateEarnings(annual)`: monthly salary scaled by the clamped
elapsed/total fraction for the month; 0 when the month's total working
hours are 0. -/
def calculateEarnings (s : Schedule) (c : ClockReading) (annual : ℚ) : ℚ :=
  let monthly := annual / 12
  let totalWorkingHours := getTotalWorkingHoursThisMonth s c
  let elapsedHours := getWorkingHoursSoFarThisMonth s c
  if totalWorkingHours = 0 then 0
  else monthly * max 0 (min 1 (elapsedHours / totalWorkingHours))

/-- `calculateDailyEarnings(annual)`: 0 on a disabled day; otherwise the
daily rate `annual / totalWorkingDaysPerYear` (0 when that count is not
positive) scaled by the clamped elapsed/total fraction for the day; 0 when
the daily working hours are 0. -/
def calculateDailyEarnings (s : Schedule) (c : ClockReading) (annual : ℚ) : ℚ :=
  if ¬ (isDayEnabled s (todayWeekday c) = true) then 0
  else
    let tw := getTotalWorkingDaysPerYear s
    let dailyRate := if 0 < tw then annual / (tw : ℚ) else 0
    let totalDailyWorkingHours := getDailyWorkingHours s
    let elapsedHours := getWorkingHoursSoFarToday s c
    if totalDailyWorkingHours = 0 then 0
    else dailyRate * max 0 (min 1 (elapsedHours / totalDailyWorkingHours))

/-- The `earnedPerSecond` computation: monthly salary divided by the month's
working seconds, 0 unless that is strictly positive. -/
def earnedPerSecond (s : Schedule) (c : ClockReading) (annual : ℚ) : ℚ :=
  let monthlySalaryRaw := annual / 12
  let totalWorkSeconds := getTotalWorkingHoursThisMonth s c * 3600
  if 0 < totalWorkSeconds then monthlySalaryRaw / totalWorkSeconds else 0

/-- `now.getHours()` recovered from the millisecond-of-day field. -/
def nowHour (c : ClockReading) : ℕ :=
  c.timeMs / 3600000

/-- `now.getMinutes()` recovered from the millisecond-of-day field. -/
def nowMinute (c : ClockReading) : ℕ :=
  c.timeMs % 3600000 / 60000

/-- `isCurrentlyInWorkHours()`: false on a disabled day; otherwise whether
`hours + minutes/60` lies in `[startHour, endHour)`. -/
def isCurrentlyInWorkHours (s : Schedule) (c : ClockReading) : Bool :=
  if ¬ (isDayEnabled s (todayWeekday c) = true) then false
  else
    let currentTimeInHours : ℚ := (nowHour c : ℚ) + (nowMinute c : ℚ) / 60
    decide ((s.startHour : ℚ) ≤ currentTimeInHours ∧
      currentTimeInHours < (s.endHour : ℚ))

/-- The monthly accrual fraction exactly as `calculateEarnings` computes it:
0 when the total is 0 (the guarded early return), otherwise
`Math.max(0, Math.min(1, elapsed / total))`. -/
def monthlyFraction (s : Schedule) (c : ClockReading) : ℚ :=
  if getTotalWorkingHoursThisMonth s c = 0 then 0
  else max 0 (min 1 (getWorkingHoursSoFarThisMonth s c /
    getTotalWorkingHoursThisMonth s c))

/-- The daily accrual fraction exactly as `calculateDailyEarnings` computes
it: 0 on a disabled day or when the daily working hours are 0 (the guarded
early returns), otherwise `Math.max(0, Math.min(1, elapsed / total))`. -/
def dailyFraction (s : Schedule) (c : ClockReading) : ℚ :=
  if ¬ (isDayEnabled s (todayWeekday c) = true) then 0
  else if getDailyWorkingHours s = 0 then 0
  else max 0 (min 1 (getWorkingHoursSoFarToday s c / getDailyWorkingHours s))

/-- The default Mon–Fri toggle set of the component. -/
def monFri : Fin 7 → Bool :=
  fun d => decide (1 ≤ d.val ∧ d.val ≤ 5)

/-- Spec-side description of `elapsedHoursToday`, written from the spec's
words: 0 if today is not a working day or `now` is before the start
boundary; the full daily working hours if `now` is at or after the end
boundary; otherwise the fractional wall-clock hours between the start
boundary and `now`. -/
def specElapsedHoursToday (s : Schedule) (c : ClockReading) : ℚ :=
  if ¬ (isDayEnabled s (todayWeekday c) = true) ∨ (c.timeMs : ℤ) < startMs s then 0
  else if endMs s ≤ (c.timeMs : ℤ) then getDailyWorkingHours s
  else ((c.timeMs : ℚ) - ((startMs s : ℤ) : ℚ)) / 3600000

/-- Spec-side per-day summand for `elapsedHoursThisMonth`, written from the
spec's words: 0 for non-working days, the full daily working hours for
working days strictly before today, and the `elapsedHoursToday` value for
today itself. -/
def specDayContribution (s : Schedule) (c : ClockReading) (day : ℕ) : ℚ :=
  if ¬ (isDayEnabled s (weekdayOfDay c.firstWeekday day) = true) then 0
  else if day < c.dayOfMonth then getDailyWorkingHours s
  else getWorkingHoursSoFarToday s c

/-- Spec-side description of `elapsedHoursThisMonth`: the sum of
`specDayContribution` over days 1 through `now`'s day-of-month. -/
def specElapsedHoursThisMonth (s : Schedule) (c : ClockReading) : ℚ :=
  ((List.range c.dayOfMonth).map (fun i => specDayContribution s c (i + 1))).sum

/-- The component's default schedule: Mon–Fri, 10:00–18:00. -/
def sMonFri : Schedule := ⟨monFri, 10, 18⟩

/-- Mon–Fri toggles with the inverted work window 18:00–10:00. -/
def sInverted : Schedule := ⟨monFri, 18, 10⟩

/-- All seven weekday toggles off. -/
def sAllOff : Schedule := ⟨fun _ => false, 10, 18⟩

/-- All toggles off and a zero-width work window. -/
def sZeroWindow : Schedule := ⟨fun _ => false, 10, 10⟩

/-- A Wednesday the 3rd at 14:00 in a 31-day month that starts on a Monday
(so the only earlier days this month are Monday the 1st and Tuesday the
2nd). -/
def cWed14 : ClockReading := ⟨1, 31, 3, 50400000⟩

/-- The same Wednesday at 11:00. -/
def cWed11 : ClockReading := ⟨1, 31, 3, 39600000⟩

/-- The same Wednesday at 17:00. -/
def cWed17 : ClockReading := ⟨1, 31, 3, 61200000⟩

/-- The same Wednesday at 19:00. -/
def cWed19 : ClockReading := ⟨1, 31, 3, 68400000⟩

/-! ### Helper lemmas -/

lemma clamp_nonneg (x : ℚ) : 0 ≤ max 0 (min 1 x) :=
  le_max_left 0 _

lemma clamp_le_one (x : ℚ) : max 0 (min 1 x) ≤ 1 :=
  max_le (by norm_num) (min_le_left 1 x)

lemma monthlyFraction_nonneg (s : Schedule) (c : ClockReading) :
    0 ≤ monthlyFraction s c := by
  unfold monthlyFraction
  split_ifs with h
  · norm_num
  · exact clamp_nonneg _

lemma monthlyFraction_le_one (s : Schedule) (c : ClockReading) :
    monthlyFraction s c ≤ 1 := by
  unfold monthlyFraction
  split_ifs with h
  · norm_num
  · exact clamp_le_one _

lemma dailyFraction_nonneg (s : Schedule) (c : ClockReading) :
    0 ≤ dailyFraction s c := by
  unfold dailyFraction
  split_ifs <;> norm_num

lemma dailyFraction_le_one (s : Schedule) (c : ClockReading) :
    dailyFraction s c ≤ 1 := by
  unfold dailyFraction
  split_ifs <;> norm_num

/-! ### Claims -/

/-- C1: for every Schedule and clock reading the monthly fraction
(`elapsedHoursThisMonth / totalWorkingHoursThisMonth`) and the daily
fraction (`elapsedHoursToday / dailyWorkingHours`) used to scale earnings
lie in [0,1]; each is 0 when its denominator is 0, and in that case the
earnings functions return 0 instead of faulting (the code guards each
division before performing it); the monthly earnings are exactly the
monthly salary scaled by this fraction. -/
theorem claim1_fraction_invariants (s : Schedule) (c : ClockReading) (a : ℚ) :
    0 ≤ monthlyFraction s c ∧ monthlyFraction s c ≤ 1 ∧
    0 ≤ dailyFraction s c ∧ dailyFraction s c ≤ 1 ∧
    (getTotalWorkingHoursThisMonth s c = 0 →
      monthlyFraction s c = 0 ∧ calculateEarnings s c a = 0) ∧
    (getDailyWorkingHours s = 0 →
      dailyFraction s c = 0 ∧ calculateDailyEarnings s c a = 0) ∧
    calculateEarnings s c a = a / 12 * monthlyFraction s c := by
  refine ⟨monthlyFraction_nonneg s c, monthlyFraction_le_one s c,
    dailyFraction_nonneg s c, dailyFraction_le_one s c, ?_, ?_, ?_⟩
  · intro h
    refine ⟨by simp [monthlyFraction, h], by simp [calculateEarnings, h]⟩
  · intro h
    refine ⟨by simp [dailyFraction, h], by simp [calculateDailyEarnings, h]⟩
  · simp only [calculateEarnings, monthlyFraction]
    split_ifs with h
    · simp
    · rfl

/-- Witness for C1 at the all-days-off, zero-width-window schedule, where
both denominators are 0. -/
theorem claim1_witness :
    getTotalWorkingHoursThisMonth sZeroWindow cWed14 = 0 ∧
    getDailyWorkingHours sZeroWindow = 0 ∧
    monthlyFraction sZeroWindow cWed14 = 0 ∧
    calculateEarnings sZeroWindow cWed14 30000 = 0 ∧
    dailyFraction sZeroWindow cWed14 = 0 ∧
    calculateDailyEarnings sZeroWindow cWed14 30000 = 0 := by
  have h1 : getTotalWorkingHoursThisMonth sZeroWindow cWed14 = 0 := by
    norm_num [getTotalWorkingHoursThisMonth, isDayEnabled, sZeroWindow, cWed14,
      List.range_succ]
  have h2 : getDailyWorkingHours sZeroWindow = 0 := by
    norm_num [getDailyWorkingHours, sZeroWindow]
  have h := claim1_fraction_invariants sZeroWindow cWed14 30000
  exact ⟨h1, h2, (h.2.2.2.2.1 h1).1, (h.2.2.2.2.1 h1).2,
    (h.2.2.2.2.2.1 h2).1, (h.2.2.2.2.2.1 h2).2⟩

/-- C7: `isCurrentlyInWorkHours` is true exactly when today is a working
day and the time of day, expressed as fractional hours `hour + minute/60`,
lies in the half-open interval `[startHour, endHour)`. -/
theorem claim7_work_hours_characterisation (s : Schedule) (c : ClockReading) :
    isCurrentlyInWorkHours s c = true ↔
      isDayEnabled s (todayWeekday c) = true ∧
      (s.startHour : ℚ) ≤ (nowHour c : ℚ) + (nowMinute c : ℚ) / 60 ∧
      (nowHour c : ℚ) + (nowMinute c : ℚ) / 60 < (s.endHour : ℚ) := by
  simp only [isCurrentlyInWorkHours]
  split_ifs with h <;> simp [h, decide_eq_true_iff, and_assoc]

/-- C9: with the inverted work window `startHour = 18, endHour = 10` the
daily working hours are `-8`, and for every clock reading the daily
accrual fraction is still a well-defined rational in `[0,1]` — the guarded
division can never be 0/0, so (in the float code) no NaN or Infinity
arises. -/
theorem claim9_inverted_window (w : Fin 7 → Bool) (c : ClockReading) :
    getDailyWorkingHours ⟨w, 18, 10⟩ = -8 ∧
    0 ≤ dailyFraction ⟨w, 18, 10⟩ c ∧ dailyFraction ⟨w, 18, 10⟩ c ≤ 1 :=
  ⟨by norm_num [getDailyWorkingHours], dailyFraction_nonneg _ c,
    dailyFraction_le_one _ c⟩

/-- C10: both earnings functions are homogeneous in the annual salary —
the accrual fraction depends only on the schedule and the clock, so
`calculateEarnings(a) = a · calculateEarnings(1)` and likewise for
`calculateDailyEarnings`; in particular a negative salary scales to
proportionally negative earnings. -/
theorem claim10_linear_in_salary (s : Schedule) (c : ClockReading) (a : ℚ) :
    calculateEarnings s c a = a * calculateEarnings s c 1 ∧
    calculateDailyEarnings s c a = a * calculateDailyEarnings s c 1 := by
  constructor
  · simp only [calculateEarnings]
    split_ifs <;> ring
  · simp only [calculateDailyEarnings]
    split_ifs <;> ring

lemma countP_toggles (p : Fin 7 → Bool) :
    (List.finRange 7).countP (fun d => p d) =
      (Finset.univ.filter (fun d : Fin 7 => p d = true)).card := by
  rw [Fin.univ_def]
  simp [Finset.filter, Finset.card, List.countP_eq_length_filter]

/-- C2: `earningsToday` is the daily rate `annualSalary /
totalWorkingDaysPerYear` scaled by the daily fraction, where
`totalWorkingDaysPerYear` is the number of weekdays flagged on times 52;
it is 0 when that count is 0 and 0 when today is not a working day. -/
theorem claim2_daily_earnings_formula (s : Schedule) (c : ClockReading) (a : ℚ) :
    calculateDailyEarnings s c a =
      a / (getTotalWorkingDaysPerYear s : ℚ) * dailyFraction s c ∧
    getTotalWorkingDaysPerYear s =
      (Finset.univ.filter (fun d : Fin 7 => s.workingDays d = true)).card * 52 ∧
    (getTotalWorkingDaysPerYear s = 0 → calculateDailyEarnings s c a = 0) ∧
    (isDayEnabled s (todayWeekday c) = false → calculateDailyEarnings s c a = 0) := by
  have hmain : calculateDailyEarnings s c a =
      a / (getTotalWorkingDaysPerYear s : ℚ) * dailyFraction s c := by
    simp only [calculateDailyEarnings, dailyFraction]
    split_ifs <;> first | rfl | simp_all [Nat.not_lt, Nat.le_zero]
  refine ⟨hmain, ?_, ?_, ?_⟩
  · unfold getTotalWorkingDaysPerYear
    rw [countP_toggles]
  · intro h
    rw [hmain, h]
    simp
  · intro h
    simp [calculateDailyEarnings, h]

/-- Witness for C2 at the all-days-off schedule, where the yearly working
day count is 0 and today is not a working day. -/
theorem claim2_witness :
    getTotalWorkingDaysPerYear sAllOff = 0 ∧
    isDayEnabled sAllOff (todayWeekday cWed14) = false ∧
    calculateDailyEarnings sAllOff cWed14 30000 = 0 := by
  have h0 : getTotalWorkingDaysPerYear sAllOff = 0 := by decide
  exact ⟨h0, by decide,
    (claim2_daily_earnings_formula sAllOff cWed14 30000).2.2.1 h0⟩

/-- C4: `getWorkingHoursSoFarToday` matches the spec's piecewise
description exactly: 0 on a non-working day or before the start boundary;
the full daily working hours at or after the end boundary (the end
boundary itself included, because at `now = endOfWork` the code's last
branch computes `(endOfWork - startOfWork) / 1000 / 3600 = endHour -
startHour`); otherwise the fractional wall-clock hours since the start
boundary. -/
theorem claim4_elapsed_today_piecewise (s : Schedule) (c : ClockReading) :
    getWorkingHoursSoFarToday s c = specElapsedHoursToday s c := by
  unfold getWorkingHoursSoFarToday specElapsedHoursToday
  by_cases hE : isDayEnabled s (todayWeekday c) = true
  · simp only [hE, not_true_eq_false, if_false, false_or]
    split_ifs with h1 h2 h3 h4
    · rfl
    · rfl
    · exact absurd (le_of_lt h2) h3
    · have ht : (c.timeMs : ℤ) = endMs s := le_antisymm (not_lt.mp h2) h4
      have htq : ((c.timeMs : ℕ) : ℚ) = ((endMs s : ℤ) : ℚ) := by
        exact_mod_cast congrArg (fun z : ℤ => (z : ℚ)) ht
      rw [htq]
      unfold endMs startMs getDailyWorkingHours
      push_cast
      ring
    · rw [div_div]
      norm_num
  · simp [hE]

/-- C8: with all seven weekday toggles off, every derived quantity is 0 and
each zero-denominator branch is guarded, so no division by zero is ever
performed. -/
theorem claim8_all_days_off (s : Schedule) (c : ClockReading) (a : ℚ)
    (h : ∀ d, s.workingDays d = false) :
    getTotalWorkingHoursThisMonth s c = 0 ∧
    getTotalWorkingDaysPerYear s = 0 ∧
    calculateEarnings s c a = 0 ∧
    calculateDailyEarnings s c a = 0 ∧
    earnedPerSecond s c a = 0 := by
  have htot : getTotalWorkingHoursThisMonth s c = 0 := by
    simp [getTotalWorkingHoursThisMonth, isDayEnabled, h]
  refine ⟨htot, ?_, ?_, ?_, ?_⟩
  · unfold getTotalWorkingDaysPerYear
    have hc : (List.finRange 7).countP (fun d => s.workingDays d) = 0 :=
      List.countP_eq_zero.mpr (fun d _ => by simp [h])
    rw [hc]
  · simp [calculateEarnings, htot]
  · simp [calculateDailyEarnings, isDayEnabled, h]
  · simp [earnedPerSecond, htot]

/-- Witness for C8: the all-days-off schedule on the concrete Wednesday. -/
theorem claim8_witness :
    (∀ d : Fin 7, sAllOff.workingDays d = false) ∧
    getTotalWorkingHoursThisMonth sAllOff cWed14 = 0 ∧
    getTotalWorkingDaysPerYear sAllOff = 0 ∧
    calculateEarnings sAllOff cWed14 30000 = 0 ∧
    calculateDailyEarnings sAllOff cWed14 30000 = 0 ∧
    earnedPerSecond sAllOff cWed14 30000 = 0 :=
  ⟨fun _ => rfl, claim8_all_days_off sAllOff cWed14 30000 (fun _ => rfl)⟩

/-- C3: the month's elapsed working hours are exactly the sum, over days 1
through today's day-of-month, of 0 for non-working days, the full daily
working hours for working days strictly before today, and the
`elapsedHoursToday` value for today itself; on the Mon–Fri 10–18 schedule,
a Wednesday the 3rd at 14:00 in a month starting on a Monday gives 4 hours
today and 2·8 + 4 = 20 hours this month. -/
theorem claim3_month_decomposition (s : Schedule) (c : ClockReading) :
    getWorkingHoursSoFarThisMonth s c = specElapsedHoursThisMonth s c ∧
    getWorkingHoursSoFarToday sMonFri cWed14 = 4 ∧
    getWorkingHoursSoFarThisMonth sMonFri cWed14 = 20 := by
  refine ⟨?_, ?_, ?_⟩
  · unfold getWorkingHoursSoFarThisMonth specElapsedHoursThisMonth
    congr 1
    apply List.map_congr_left
    intro i hi
    rw [List.mem_range] at hi
    unfold elapsedContribution specDayContribution
    by_cases hE : isDayEnabled s (weekdayOfDay c.firstWeekday (i + 1)) = true
    · simp only [hE, not_true_eq_false, if_false]
      by_cases hlt : i + 1 < c.dayOfMonth
      · rw [if_pos hlt, if_pos hlt]
      · have heq : i + 1 = c.dayOfMonth := by omega
        rw [if_neg hlt, if_neg hlt]
        unfold getWorkingHoursSoFarToday todayWeekday
        rw [← heq]
        simp only [hE, not_true_eq_false, if_false]
    · simp [hE]
  · norm_num [getWorkingHoursSoFarToday, isDayEnabled, todayWeekday, weekdayOfDay,
      startMs, endMs, getDailyWorkingHours, sMonFri, cWed14, monFri]
  · norm_num [getWorkingHoursSoFarThisMonth, elapsedContribution, isDayEnabled,
      todayWeekday, weekdayOfDay, startMs, endMs, getDailyWorkingHours,
      sMonFri, cWed14, monFri, List.range_succ]

/-- Counterexample to C6 as stated: with the inverted window 18:00–10:00 on
the Mon–Fri toggles, the month's working seconds are negative, the code's
`totalWorkSeconds > 0` guard fails and it returns 0, while the claimed
quotient `(annualSalary/12) / (totalWorkingHoursThisMonth · 3600)` is a
nonzero (negative) number. -/
theorem claim6_counterexample :
    earnedPerSecond sInverted cWed14 30000 = 0 ∧
    getTotalWorkingHoursThisMonth sInverted cWed14 * 3600 ≠ 0 ∧
    (30000 / 12 : ℚ) / (getTotalWorkingHoursThisMonth sInverted cWed14 * 3600) ≠ 0 := by
  have htot : getTotalWorkingHoursThisMonth sInverted cWed14 = -184 := by
    norm_num [getTotalWorkingHoursThisMonth, isDayEnabled, todayWeekday,
      weekdayOfDay, getDailyWorkingHours, sInverted, cWed14, monFri,
      List.range_succ]
  refine ⟨?_, ?_, ?_⟩
  · rw [earnedPerSecond, htot]
    norm_num
  · rw [htot]
    norm_num
  · rw [htot]
    norm_num

/-- C6 amended: `earningsPerSecond` equals `(annualSalary/12) /
(totalWorkingHoursThisMonth · 3600)` whenever that denominator is
positive, and equals 0 whenever the denominator is zero **or negative**
(the code guards the division with a strict `totalWorkSeconds > 0`
check). -/
theorem claim6_per_second_amended (s : Schedule) (c : ClockReading) (a : ℚ) :
    (0 < getTotalWorkingHoursThisMonth s c * 3600 →
      earnedPerSecond s c a =
        (a / 12) / (getTotalWorkingHoursThisMonth s c * 3600)) ∧
    (getTotalWorkingHoursThisMonth s c * 3600 ≤ 0 →
      earnedPerSecond s c a = 0) := by
  constructor
  · intro h
    rw [earnedPerSecond, if_pos h]
  · intro h
    rw [earnedPerSecond, if_neg (by linarith)]

/-- Witness for C6 (amended) on the default schedule in the concrete
31-day month: 23 working days of 8 hours give 184 positive working hours. -/
theorem claim6_witness :
    0 < getTotalWorkingHoursThisMonth sMonFri cWed14 * 3600 ∧
    getTotalWorkingHoursThisMonth sMonFri cWed14 * 3600 ≤ 662400 ∧
    earnedPerSecond sMonFri cWed14 30000 =
      (30000 / 12 : ℚ) / (getTotalWorkingHoursThisMonth sMonFri cWed14 * 3600) := by
  have htot : getTotalWorkingHoursThisMonth sMonFri cWed14 = 184 := by
    norm_num [getTotalWorkingHoursThisMonth, isDayEnabled, todayWeekday,
      weekdayOfDay, getDailyWorkingHours, sMonFri, cWed14, monFri,
      List.range_succ]
  have hpos : 0 < getTotalWorkingHoursThisMonth sMonFri cWed14 * 3600 := by
    rw [htot]; norm_num
  exact ⟨hpos, by rw [htot]; norm_num,
    (claim6_per_second_amended sMonFri cWed14 30000).1 hpos⟩

lemma partial_nonneg (s : Schedule) (t : ℕ) (h : startMs s ≤ (t : ℤ)) :
    0 ≤ ((t : ℚ) - ((startMs s : ℤ) : ℚ)) / 1000 / 3600 := by
  have hq : ((startMs s : ℤ) : ℚ) ≤ (t : ℚ) := by exact_mod_cast h
  have h1 : (0:ℚ) ≤ (t : ℚ) - ((startMs s : ℤ) : ℚ) := by linarith
  positivity

lemma partial_mono (s : Schedule) {t1 t2 : ℕ} (h : t1 ≤ t2) :
    ((t1 : ℚ) - ((startMs s : ℤ) : ℚ)) / 1000 / 3600 ≤
      ((t2 : ℚ) - ((startMs s : ℤ) : ℚ)) / 1000 / 3600 := by
  have hq : (t1 : ℚ) ≤ (t2 : ℚ) := by exact_mod_cast h
  gcongr

lemma partial_le_daily (s : Schedule) (t : ℕ) (h : (t : ℤ) ≤ endMs s) :
    ((t : ℚ) - ((startMs s : ℤ) : ℚ)) / 1000 / 3600 ≤ getDailyWorkingHours s := by
  rw [div_div, div_le_iff₀ (by norm_num : (0:ℚ) < 1000 * 3600)]
  have hq : (t : ℚ) ≤ ((endMs s : ℤ) : ℚ) := by exact_mod_cast h
  unfold endMs at hq
  unfold startMs getDailyWorkingHours
  push_cast at hq ⊢
  linarith

lemma partial_at_end (s : Schedule) (t : ℕ) (h : (t : ℤ) = endMs s) :
    ((t : ℚ) - ((startMs s : ℤ) : ℚ)) / 1000 / 3600 = getDailyWorkingHours s := by
  have hq : ((t:ℕ) : ℚ) = ((endMs s : ℤ) : ℚ) := by exact_mod_cast h
  rw [hq]
  unfold endMs startMs getDailyWorkingHours
  push_cast
  ring

/-- Counterexample to C5 as stated: for the Schedule with Mon–Fri toggles
and the inverted window 18:00–10:00, on a working Wednesday,
`elapsedHoursToday` moves from 0 at 17:00 down to −8 at 19:00 as `now`
advances through the day, and at 11:00 — at/after the 10:00 end boundary —
it is 0, not the daily working hours. -/
theorem claim5_counterexample :
    isDayEnabled sInverted (todayWeekday cWed17) = true ∧
    cWed17.timeMs ≤ cWed19.timeMs ∧
    getWorkingHoursSoFarToday sInverted cWed19 <
      getWorkingHoursSoFarToday sInverted cWed17 ∧
    endMs sInverted ≤ (cWed11.timeMs : ℤ) ∧
    getWorkingHoursSoFarToday sInverted cWed11 ≠ getDailyWorkingHours sInverted := by
  refine ⟨by decide, by decide, ?_, by decide, ?_⟩
  · norm_num [getWorkingHoursSoFarToday, isDayEnabled, todayWeekday, weekdayOfDay,
      startMs, endMs, getDailyWorkingHours, sInverted, cWed17, cWed19, monFri]
  · norm_num [getWorkingHoursSoFarToday, isDayEnabled, todayWeekday, weekdayOfDay,
      startMs, endMs, getDailyWorkingHours, sInverted, cWed11, monFri]

/-- C5 amended: the claim holds once restricted to non-inverted windows —
for a fixed Schedule with `startHour ≤ endHour` and a working day,
`elapsedHoursToday` is non-decreasing as the time of day advances, and
equals the daily working hours for every time at or after the end
boundary. -/
theorem claim5_monotone_amended (s : Schedule) (c : ClockReading) (t1 t2 : ℕ)
    (hw : s.startHour ≤ s.endHour)
    (he : isDayEnabled s (todayWeekday c) = true) (ht : t1 ≤ t2) :
    getWorkingHoursSoFarToday s ⟨c.firstWeekday, c.daysInMonth, c.dayOfMonth, t1⟩ ≤
      getWorkingHoursSoFarToday s ⟨c.firstWeekday, c.daysInMonth, c.dayOfMonth, t2⟩ ∧
    (endMs s ≤ (t2 : ℤ) →
      getWorkingHoursSoFarToday s ⟨c.firstWeekday, c.daysInMonth, c.dayOfMonth, t2⟩ =
        getDailyWorkingHours s) := by
  have hms : startMs s ≤ endMs s := by
    unfold startMs endMs
    exact mul_le_mul_of_nonneg_right hw (by norm_num)
  have hdw : (0:ℚ) ≤ getDailyWorkingHours s := by
    unfold getDailyWorkingHours
    have hq : (s.startHour : ℚ) ≤ (s.endHour : ℚ) := by exact_mod_cast hw
    linarith
  have htz : (t1 : ℤ) ≤ (t2 : ℤ) := by exact_mod_cast ht
  unfold getWorkingHoursSoFarToday
  simp only [todayWeekday] at he ⊢
  simp only [he, not_true_eq_false, if_false]
  constructor
  · split_ifs with h1 h2 h3 h4 h5 h6 h7 h8
    · exact le_rfl
    · exact hdw
    · exact partial_nonneg s t2 (not_lt.mp h2)
    · exfalso; omega
    · exact le_rfl
    · exfalso; omega
    · exfalso; omega
    · exact partial_le_daily s t1 (not_lt.mp h4)
    · exact partial_mono s ht
  · intro h9
    split_ifs with g1 g2
    · exfalso; omega
    · rfl
    · exact partial_at_end s t2 (le_antisymm (not_lt.mp g2) h9)

/-- Witness for C5 (amended): the default Mon–Fri 10–18 schedule on the
concrete working Wednesday, comparing 12:00 with 14:00. -/
theorem claim5_witness :
    sMonFri.startHour ≤ sMonFri.endHour ∧
    isDayEnabled sMonFri (todayWeekday cWed14) = true ∧
    (43200000 : ℕ) ≤ 50400000 ∧
    getWorkingHoursSoFarToday sMonFri
        ⟨cWed14.firstWeekday, cWed14.daysInMonth, cWed14.dayOfMonth, 43200000⟩ ≤
      getWorkingHoursSoFarToday sMonFri
        ⟨cWed14.firstWeekday, cWed14.daysInMonth, cWed14.dayOfMonth, 50400000⟩ :=
  ⟨by decide, by decide, by decide,
    (claim5_monotone_amended sMonFri cWed14 43200000 50400000 (by decide)
      (by decide) (by decide)).1⟩

end SalaryCounter
